import Mathlib

/-!
# Verification of the mosaic stitching engine of `rplab_image_analysis`

Shallow embedding of `rplab_image_analysis/general/stitching.py`,
`rplab_image_analysis/general/max_projections.py` and the metadata access in
`rplab_image_analysis/utils/metadata.py`, together with theorems settling the
specification claims about the stitcher.

Conventions:
* Stage positions and pixel sizes are embedded as rationals (`ℚ`); Python's
  `round` built-in is embedded as round-half-to-even on the exact value.
* Image arrays carry their shape, a numpy dtype tag and integer pixel data
  (`ℕ → ℕ → ℤ`, row-major `data row col`).  All pixel values that flow through
  the stitcher are integer-valued (images of integral dtype, zero padding, and
  element-wise maxima thereof), so the float64 round-trip that
  `np.concatenate`/`astype` performs is value-preserving and the value cast is
  the identity; the dtype *tag* is tracked faithfully.
* Python exceptions are embedded as an error type, fallible code returns
  `Except PyError _`.
-/

/-- Python exception kinds reachable in the embedded code, plus the two error
kinds the specification names (`ConfigurationError`, `MetadataError`), which do
not occur anywhere in the repository but are needed to state the spec's
error-handling claims. -/
inductive PyError where
  | indexError
  | fileNotFoundError
  | keyError
  | valueError
  | unboundLocalError
  | zeroDivisionError
  | configurationError
  | metadataError
deriving DecidableEq, Repr

/-- Python's built-in `round` applied to the exact rational value: round to
nearest, ties to even (banker's rounding).  This embeds the `round(...)` call
in `_get_pixel_offset` (`general/stitching.py`). -/
def pyRound (q : ℚ) : ℤ :=
  if q - Int.floor q < 1/2 then Int.floor q
  else if (1 : ℚ)/2 < q - Int.floor q then Int.floor q + 1
  else if Int.floor q % 2 = 0 then Int.floor q else Int.floor q + 1

/-- `_get_pixel_offset(start_um, end_um, pixel_size)` from
`general/stitching.py`: `round((end_um - start_um)/pixel_size)`. -/
def get_pixel_offset (start_um end_um pixel_size : ℚ) : ℤ :=
  pyRound ((end_um - start_um) / pixel_size)

/-- `_get_xy_offsets(start_positions, positions, x_inverted, y_inverted,
swap_axes, pixel_size)` from `general/stitching.py`.  Positions are `(x, y)`
pairs of stage coordinates in microns. -/
def get_xy_offsets (start_positions positions : ℚ × ℚ)
    (x_inverted y_inverted swap_axes : Bool) (pixel_size : ℚ) : ℤ × ℤ :=
  let x_offset := get_pixel_offset start_positions.1 positions.1 pixel_size
  let x_offset := x_offset * (if x_inverted then -1 else 1)
  let y_offset := get_pixel_offset start_positions.2 positions.2 pixel_size
  let y_offset := y_offset * (if y_inverted then -1 else 1)
  if ¬ swap_axes then (x_offset, y_offset) else (y_offset, x_offset)

/-- On an integer plus one half, `pyRound` lands on the even neighbour: the
tie-breaking rule is round-half-to-even, applied uniformly. -/
theorem pyRound_tie_even (m : ℤ) : Even (pyRound ((m : ℚ) + 1/2)) := by
  have hfl : Int.floor ((m : ℚ) + 1/2) = m := by
    rw [show ((m : ℚ) + 1/2) = (1/2 : ℚ) + m by ring, Int.floor_add_int]
    norm_num
  have hfrac : ((m : ℚ) + 1/2) - Int.floor ((m : ℚ) + 1/2) = 1/2 := by
    rw [hfl]; ring
  unfold pyRound
  rw [hfrac, hfl]
  norm_num
  split_ifs with h
  · exact (Int.even_iff).mpr (by omega)
  · have h1 : m % 2 = 1 := by omega
    exact Int.even_add_one.mpr (Int.not_even_iff.mpr h1)

/-- C1: for every pair of stage positions and every positive pixel size, the
coordinate mapper returns `x = round((pos.x - start.x)/pixel_size)` negated
when `x_inverted`, `y = round((pos.y - start.y)/pixel_size)` negated when
`y_inverted`, as `(y, x)` when `swap_axes` and `(x, y)` otherwise; each offset
is an integer and ties are settled by one consistent rule (half-to-even). -/
theorem c1_xy_offsets_spec (start_positions positions : ℚ × ℚ)
    (pixel_size : ℚ) (_hps : 0 < pixel_size)
    (x_inverted y_inverted swap_axes : Bool) :
    (get_xy_offsets start_positions positions x_inverted y_inverted swap_axes
        pixel_size =
      (let x := if x_inverted
          then -pyRound ((positions.1 - start_positions.1) / pixel_size)
          else pyRound ((positions.1 - start_positions.1) / pixel_size)
       let y := if y_inverted
          then -pyRound ((positions.2 - start_positions.2) / pixel_size)
          else pyRound ((positions.2 - start_positions.2) / pixel_size)
       if swap_axes then (y, x) else (x, y))) ∧
    ∀ m : ℤ, Even (pyRound ((m : ℚ) + 1/2)) := by
  refine ⟨?_, pyRound_tie_even⟩
  simp only [get_xy_offsets, get_pixel_offset]
  cases x_inverted <;> cases y_inverted <;> cases swap_axes <;> simp

/-- Witness for C1 at a concrete input: start `(0,0)`, position `(10, 3)`,
pixel size `1`, x inverted, no y inversion, no axis swap. -/
theorem c1_xy_offsets_spec_witness :
    (0 : ℚ) < 1 ∧
    ((get_xy_offsets (0, 0) (10, 3) true false false 1 =
      (let x := if true
          then -pyRound (((10 : ℚ) - 0) / 1)
          else pyRound (((10 : ℚ) - 0) / 1)
       let y := if false
          then -pyRound (((3 : ℚ) - 0) / 1)
          else pyRound (((3 : ℚ) - 0) / 1)
       if false then (y, x) else (x, y))) ∧
    ∀ m : ℤ, Even (pyRound ((m : ℚ) + 1/2))) :=
  ⟨by norm_num, c1_xy_offsets_spec (0, 0) (10, 3) 1 (by norm_num) true false false⟩

/-! ## Arrays and the canvas manager -/

/-- Numpy dtype tags reachable in the stitcher: the integral image dtypes and
`float64` (the dtype of `np.zeros` and of promoted concatenations). -/
inductive DType where
  | uint8
  | uint16
  | int32
  | float64
deriving DecidableEq, Repr

/-- Whether a dtype is an integer dtype. -/
def DType.isInt : DType → Bool
  | .uint8 => true
  | .uint16 => true
  | .int32 => true
  | .float64 => false

/-- A 2-D numpy array: shape, dtype tag, and pixel data indexed as
`data row col`.  Pixel values are integer-valued throughout the stitcher
(integral input images, zero padding, element-wise maxima), so data is `ℤ`
and the value casts performed by `astype`/assignment are the identity; the
dtype tag itself is tracked exactly. -/
structure NDArray where
  height : ℕ
  width : ℕ
  dtype : DType
  data : ℕ → ℕ → ℤ

/-- `np.zeros([h, w])`: default dtype `float64`. -/
def npZeros (h w : ℕ) : NDArray :=
  ⟨h, w, .float64, fun _ _ => 0⟩

/-- Numpy type promotion, restricted to the pairs that occur here: equal
dtypes stay, and any integral dtype combined with `float64` gives `float64`. -/
def promoteTypes (d1 d2 : DType) : DType :=
  if d1 = d2 then d1 else .float64

/-- `a.astype(d)`: re-tag the dtype.  The value cast is the identity on the
integer-valued pixel data flowing through the stitcher. -/
def astype (d : DType) (a : NDArray) : NDArray :=
  { a with dtype := d }

/-- `np.concatenate([a, b], axis=1)`: join along the second (x) axis.  The
heights agree at every call site; the dtype is promoted. -/
def concatAxis1 (a b : NDArray) : NDArray :=
  ⟨a.height, a.width + b.width, promoteTypes a.dtype b.dtype,
    fun i j => if j < a.width then a.data i j else b.data i (j - a.width)⟩

/-- `np.concatenate([a, b])` (axis 0): join along the first (y) axis. -/
def concatAxis0 (a b : NDArray) : NDArray :=
  ⟨a.height + b.height, a.width, promoteTypes a.dtype b.dtype,
    fun i j => if i < a.height then a.data i j else b.data (i - a.height) j⟩

/-- Image dimensions `[height, width]` as tracked by `_init_image_dims`. -/
structure Dims where
  height : ℕ
  width : ℕ
deriving DecidableEq, Repr

/-- `_get_ds_factor(image_metadata, new_image)` from `general/stitching.py`:
when the array height differs from the metadata height it returns
`int(meta_height/image_height)` — the quotient truncated to an integer — and
otherwise `1`.  No exception is raised on a non-exact quotient. -/
def get_ds_factor (meta_height image_height : ℕ) : ℕ :=
  if image_height ≠ meta_height then meta_height / image_height else 1

/-- `_init_image_dims(image_metadata, ds_factor)`: `[int(meta_height/ds),
int(meta_width/ds)]`; Python raises `ZeroDivisionError` when `ds_factor` is
`0` (which `_get_ds_factor` produces when the array is taller than the
metadata height). -/
def init_image_dims (meta_height meta_width ds_factor : ℕ) :
    Except PyError Dims :=
  if ds_factor = 0 then .error .zeroDivisionError
  else .ok ⟨meta_height / ds_factor, meta_width / ds_factor⟩

/-- `_get_pixel_size(image_metadata, ds_factor)`: metadata pixel size times
binning times downsample factor. -/
def get_pixel_size (meta_pixel_size : ℚ) (binning ds_factor : ℕ) : ℚ :=
  meta_pixel_size * binning * ds_factor

/-- `_init_ranges(image_dims)`: `x_range = [0, width]`, `y_range = [0,
height]`, returned as `(x_range, y_range)`. -/
def init_ranges (image_dims : Dims) : (ℤ × ℤ) × (ℤ × ℤ) :=
  ((0, image_dims.width), (0, image_dims.height))

/-- `_get_new_ranges(x_stage_offset, y_stage_offset, image_dims)`: the new
image covers `[offset, offset + dimension]` on each axis. -/
def get_new_ranges (x_offset y_offset : ℤ) (image_dims : Dims) :
    (ℤ × ℤ) × (ℤ × ℤ) :=
  ((x_offset, x_offset + image_dims.width),
   (y_offset, y_offset + image_dims.height))

/-- `_get_stitched_extns(stitched_x_range, stitched_y_range, new_x_range,
new_y_range)`: `[current_min - new_min, new_max - current_max]` per axis. -/
def get_stitched_extns (stitched_x_range stitched_y_range
    new_x_range new_y_range : ℤ × ℤ) : (ℤ × ℤ) × (ℤ × ℤ) :=
  ((stitched_x_range.1 - new_x_range.1, new_x_range.2 - stitched_x_range.2),
   (stitched_y_range.1 - new_y_range.1, new_y_range.2 - stitched_y_range.2))

/-- `_update_stitched_range(stitched_x_range, stitched_y_range, new_x_range,
new_y_range)`: componentwise `[min of mins, max of maxes]` on both axes. -/
def update_stitched_range (stitched_x_range stitched_y_range
    new_x_range new_y_range : ℤ × ℤ) : (ℤ × ℤ) × (ℤ × ℤ) :=
  ((min stitched_x_range.1 new_x_range.1, max stitched_x_range.2 new_x_range.2),
   (min stitched_y_range.1 new_y_range.1, max stitched_y_range.2 new_y_range.2))

/-- The `x_extensions[0] > 0` block of `_add_stitched_extns`: prepend a zero
block on the left (`np.zeros([shape[0], ext])` concatenated on axis 1). -/
def extend_left (s : NDArray) (e : ℤ) : NDArray :=
  if e > 0 then concatAxis1 (npZeros s.height e.toNat) s else s

/-- The `x_extensions[1] > 0` block: append a zero block on the right. -/
def extend_right (s : NDArray) (e : ℤ) : NDArray :=
  if e > 0 then concatAxis1 s (npZeros s.height e.toNat) else s

/-- The `y_extensions[0] > 0` block: prepend a zero block on top. -/
def extend_top (s : NDArray) (e : ℤ) : NDArray :=
  if e > 0 then concatAxis0 (npZeros e.toNat s.width) s else s

/-- The `y_extensions[1] > 0` block: append a zero block at the bottom. -/
def extend_bot (s : NDArray) (e : ℤ) : NDArray :=
  if e > 0 then concatAxis0 s (npZeros e.toNat s.width) else s

/-- `_add_stitched_extns(stitched_image, x_extensions, y_extensions)` from
`general/stitching.py`: concatenate zero blocks (left, right, top, bottom, in
that order) for every positive extension, re-reading the current shape at
each step, then re-cast to the dtype the canvas had on entry (the
concatenations with float64 zero blocks silently upcast). -/
def add_stitched_extns (stitched_image : NDArray)
    (x_extensions y_extensions : ℤ × ℤ) : NDArray :=
  astype stitched_image.dtype
    (extend_bot
      (extend_top
        (extend_right (extend_left stitched_image x_extensions.1)
          x_extensions.2)
        y_extensions.1)
      y_extensions.2)

/-- `_get_position_slices(x_extensions, y_extensions, image_dims)`: the
destination slice of the new image inside the extended canvas, as
`(x_slice, y_slice)` with each slice a `(start, stop)` pair.  When a side was
extended the slice starts at `0`; otherwise at `-extension` (which is then
non-negative). -/
def get_position_slices (x_extensions y_extensions : ℤ × ℤ)
    (image_dims : Dims) : (ℤ × ℤ) × (ℤ × ℤ) :=
  let x_slice := if x_extensions.1 > 0
    then ((0 : ℤ), (image_dims.width : ℤ))
    else (-x_extensions.1, (image_dims.width : ℤ) - x_extensions.1)
  let y_slice := if y_extensions.1 > 0
    then ((0 : ℤ), (image_dims.height : ℤ))
    else (-y_extensions.1, (image_dims.height : ℤ) - y_extensions.1)
  (x_slice, y_slice)

/-- `stitched_image[slices[1], slices[0]]`: the rectangular sub-array of the
canvas selected by the position slices. -/
def subRegion (a : NDArray) (x_slice y_slice : ℤ × ℤ) : NDArray :=
  ⟨(y_slice.2 - y_slice.1).toNat, (x_slice.2 - x_slice.1).toNat, a.dtype,
    fun i j => a.data (y_slice.1.toNat + i) (x_slice.1.toNat + j)⟩

/-- `_get_new_region_max(new_image, stitched_image, slices)`: stack the canvas
region at the slices with the new image along a fresh leading axis and take
`np.max` across it — the element-wise maximum, with numpy's dtype
promotion. -/
def get_new_region_max (new_image stitched_image : NDArray)
    (slices : (ℤ × ℤ) × (ℤ × ℤ)) : NDArray :=
  let stitched_region := subRegion stitched_image slices.1 slices.2
  ⟨stitched_region.height, stitched_region.width,
    promoteTypes stitched_region.dtype new_image.dtype,
    fun i j => max (stitched_region.data i j) (new_image.data i j)⟩

/-- `stitched_image[slices[1], slices[0]] = new_region`: write the region back
into the canvas.  Assignment into a numpy array keeps the array's shape and
dtype, casting the assigned values (the identity on this integer data). -/
def setRegion (stitched_image : NDArray) (slices : (ℤ × ℤ) × (ℤ × ℤ))
    (region : NDArray) : NDArray :=
  ⟨stitched_image.height, stitched_image.width, stitched_image.dtype,
    fun i j =>
      if slices.2.1.toNat ≤ i ∧ i < slices.2.1.toNat + region.height ∧
          slices.1.1.toNat ≤ j ∧ j < slices.1.1.toNat + region.width
      then region.data (i - slices.2.1.toNat) (j - slices.1.1.toNat)
      else stitched_image.data i j⟩

/-- `_stitch_new_image(new_image, stitched_image, x_offset, y_offset,
image_dims, stitched_x_range, stitched_y_range)` from `general/stitching.py`:
compute the new ranges, extensions and updated ranges, extend the canvas,
and max-merge the new image into its slice.  Returns the new canvas together
with the updated `(x_range, y_range)` (the Python code mutates the range
lists in place and also returns them). -/
def stitch_new_image (new_image stitched_image : NDArray)
    (x_offset y_offset : ℤ) (image_dims : Dims)
    (stitched_x_range stitched_y_range : ℤ × ℤ) :
    NDArray × (ℤ × ℤ) × (ℤ × ℤ) :=
  let ranges := get_new_ranges x_offset y_offset image_dims
  let extns := get_stitched_extns stitched_x_range stitched_y_range
    ranges.1 ranges.2
  let updated := update_stitched_range stitched_x_range stitched_y_range
    ranges.1 ranges.2
  let extended := add_stitched_extns stitched_image extns.1 extns.2
  let slices := get_position_slices extns.1 extns.2 image_dims
  let new_region := get_new_region_max new_image extended slices
  (setRegion extended slices new_region, updated)

/-- C2: placing a field of identical shape at pixel offset `(0, 0)` merges by
element-wise maximum: every pixel of the merged region equals
`max(canvas value, field value)`, and in particular the incoming field never
overwrites a brighter canvas value with a dimmer or zero one. -/
theorem c2_overlap_max_merge (stitched_image new_image : NDArray)
    (_hh : new_image.height = stitched_image.height)
    (_hw : new_image.width = stitched_image.width)
    (i j : ℕ) (hi : i < stitched_image.height) (hj : j < stitched_image.width) :
    ((stitch_new_image new_image stitched_image 0 0
        ⟨stitched_image.height, stitched_image.width⟩
        (0, stitched_image.width) (0, stitched_image.height)).1.data i j =
      max (stitched_image.data i j) (new_image.data i j)) ∧
    stitched_image.data i j ≤
      (stitch_new_image new_image stitched_image 0 0
        ⟨stitched_image.height, stitched_image.width⟩
        (0, stitched_image.width) (0, stitched_image.height)).1.data i j := by
  have key : (stitch_new_image new_image stitched_image 0 0
      ⟨stitched_image.height, stitched_image.width⟩
      (0, stitched_image.width) (0, stitched_image.height)).1.data i j =
      max (stitched_image.data i j) (new_image.data i j) := by
    simp [stitch_new_image, get_new_ranges, get_stitched_extns,
      update_stitched_range, add_stitched_extns, extend_left, extend_right,
      extend_top, extend_bot, get_position_slices,
      get_new_region_max, subRegion, setRegion, astype, hi, hj]
  exact ⟨key, key ▸ le_max_left _ _⟩

/-- Witness for C2: a `1 × 1` canvas holding `5` merged with a `1 × 1` field
holding `3` at offset `(0, 0)` keeps the brighter value `5 = max 5 3`. -/
theorem c2_overlap_max_merge_witness :
    (NDArray.mk 1 1 .uint16 (fun _ _ => 3)).height =
      (NDArray.mk 1 1 .uint16 (fun _ _ => 5)).height ∧
    (NDArray.mk 1 1 .uint16 (fun _ _ => 3)).width =
      (NDArray.mk 1 1 .uint16 (fun _ _ => 5)).width ∧
    0 < (NDArray.mk 1 1 .uint16 (fun _ _ => 5)).height ∧
    0 < (NDArray.mk 1 1 .uint16 (fun _ _ => 5)).width ∧
    (((stitch_new_image (NDArray.mk 1 1 .uint16 (fun _ _ => 3))
        (NDArray.mk 1 1 .uint16 (fun _ _ => 5)) 0 0 ⟨1, 1⟩
        (0, 1) (0, 1)).1.data 0 0 =
      max ((NDArray.mk 1 1 .uint16 (fun _ _ => 5)).data 0 0)
        ((NDArray.mk 1 1 .uint16 (fun _ _ => 3)).data 0 0)) ∧
    (NDArray.mk 1 1 .uint16 (fun _ _ => 5)).data 0 0 ≤
      (stitch_new_image (NDArray.mk 1 1 .uint16 (fun _ _ => 3))
        (NDArray.mk 1 1 .uint16 (fun _ _ => 5)) 0 0 ⟨1, 1⟩
        (0, 1) (0, 1)).1.data 0 0) :=
  ⟨rfl, rfl, Nat.one_pos, Nat.one_pos,
    c2_overlap_max_merge (NDArray.mk 1 1 .uint16 (fun _ _ => 5))
      (NDArray.mk 1 1 .uint16 (fun _ _ => 3)) rfl rfl 0 0
      Nat.one_pos Nat.one_pos⟩

/-! ## The stitcher pipeline and its failure modes

`stitch_images` / `_stitch_mm_images` from `general/stitching.py`, with the
metadata access of `utils/metadata.py` embedded through per-field flags:
`MMMetadata._init_metadata` raises `FileNotFoundError` when no Micro-Manager
metadata sidecar exists in the field's directory, and `MMImageMetadata`
raises `KeyError` when `PixelSizeUm`, `XPositionUm` or `YPositionUm` is absent
from the frame's metadata dictionary.  `metadata.is_mm` catches only
`FileNotFoundError` and returns `False`, in which case `stitch_images` skips
the stitching branch and crashes at `files.save_image(save_path,
stitched_image)` with the local `stitched_image` unbound
(`UnboundLocalError`).  Field loading (`_get_new_image`) is abstracted as the
already-loaded projection array carried by the field; its own failure mode is
modelled separately with the max-projection functions below. -/

/-- The metadata available for one field: presence flags for the sidecar file
and the required keys, plus the values when present. -/
structure FieldMeta where
  hasMetadataFile : Bool
  hasPixelSize : Bool
  hasXPos : Bool
  hasYPos : Bool
  xPos : ℚ
  yPos : ℚ
  pixelSize : ℚ
  binning : ℕ
  metaWidth : ℕ
  metaHeight : ℕ

/-- The image metadata the stitcher reads from a successfully constructed
`MMImageMetadata`. -/
structure ImageMeta where
  xPos : ℚ
  yPos : ℚ
  pixelSize : ℚ
  binning : ℕ
  metaWidth : ℕ
  metaHeight : ℕ

/-- `metadata.MMMetadata(file_path).get_image_metadata(0)`: fails with
`FileNotFoundError` when the sidecar is missing and with `KeyError` when a
required key is missing. -/
def read_image_metadata (m : FieldMeta) : Except PyError ImageMeta :=
  if ¬ m.hasMetadataFile then .error .fileNotFoundError
  else if ¬ m.hasPixelSize then .error .keyError
  else if ¬ m.hasXPos then .error .keyError
  else if ¬ m.hasYPos then .error .keyError
  else .ok ⟨m.xPos, m.yPos, m.pixelSize, m.binning, m.metaWidth, m.metaHeight⟩

/-- A field's stage-position or pixel-size metadata is missing or
unreadable. -/
def FieldMeta.missing (m : FieldMeta) : Prop :=
  m.hasMetadataFile = false ∨ m.hasPixelSize = false ∨
  m.hasXPos = false ∨ m.hasYPos = false

instance (m : FieldMeta) : Decidable m.missing := by
  unfold FieldMeta.missing; infer_instance

/-- One stitched input unit: its metadata and its (already loaded and
projected) 2-D array. -/
structure StitchField where
  meta : FieldMeta
  image : NDArray

/-- The stitch configuration of this revision: `x_inverted`, `y_inverted`,
`swap_axes`. -/
structure StitchConfig where
  x_inverted : Bool
  y_inverted : Bool
  swap_axes : Bool

/-- The loop-carried state of `_stitch_mm_images` after the first field. -/
structure LoopState where
  startPositions : ℚ × ℚ
  pixelSize : ℚ
  imageDims : Dims
  xRange : ℤ × ℤ
  yRange : ℤ × ℤ
  canvas : NDArray

/-- The `file_num > 0` iterations of the loop in `_stitch_mm_images`: read the
field's metadata, compute its offsets relative to the first field, and merge
it into the canvas. -/
def stitch_loop (cfg : StitchConfig) (st : LoopState) :
    List StitchField → Except PyError LoopState
  | [] => .ok st
  | f :: rest =>
    match read_image_metadata f.meta with
    | .error e => .error e
    | .ok im =>
      let offs := get_xy_offsets st.startPositions (im.xPos, im.yPos)
        cfg.x_inverted cfg.y_inverted cfg.swap_axes st.pixelSize
      let res := stitch_new_image f.image st.canvas offs.1 offs.2
        st.imageDims st.xRange st.yRange
      stitch_loop cfg
        { st with canvas := res.1, xRange := res.2.1, yRange := res.2.2 } rest

/-- `_stitch_mm_images(file_list, x_inverted, y_inverted, swap_axes)`: the
first field initializes start positions, downsample factor, image dimensions,
pixel size, ranges and canvas; the remaining fields are folded in by
`stitch_loop`.  On an empty list the loop body never runs and the `return
stitched_image` raises `UnboundLocalError`. -/
def stitch_mm_images (cfg : StitchConfig) :
    List StitchField → Except PyError NDArray
  | [] => .error .unboundLocalError
  | f0 :: rest =>
    match read_image_metadata f0.meta with
    | .error e => .error e
    | .ok im0 =>
      let ds := get_ds_factor im0.metaHeight f0.image.height
      match init_image_dims im0.metaHeight im0.metaWidth ds with
      | .error e => .error e
      | .ok dims =>
        let ps := get_pixel_size im0.pixelSize im0.binning ds
        let ranges := init_ranges dims
        match stitch_loop cfg
            ⟨(im0.xPos, im0.yPos), ps, dims, ranges.1, ranges.2, f0.image⟩
            rest with
        | .error e => .error e
        | .ok st => .ok st.canvas

/-- `stitch_images(file_list, save_path, ...)` from `general/stitching.py`.
On an empty list, `metadata.is_mm(file_list[0])` indexes into the empty list
and raises `IndexError`.  When the first field has no metadata sidecar,
`is_mm` returns `False`, the stitching branch is skipped, and
`files.save_image(save_path, stitched_image)` raises `UnboundLocalError`.
A returned `.ok` value is the stitched canvas handed to `files.save_image`;
every `.error` aborts before any image output is written. -/
def stitch_images (cfg : StitchConfig) :
    List StitchField → Except PyError NDArray
  | [] => .error .indexError
  | f0 :: rest =>
    if f0.meta.hasMetadataFile then stitch_mm_images cfg (f0 :: rest)
    else .error .unboundLocalError

/-- C4 counterexample: on the empty input list the stitch operation raises
`IndexError` (from `file_list[0]` inside `metadata.is_mm(file_list[0])`), not
the `ConfigurationError` the claim names — no such error class exists in the
repository. -/
theorem c4_counterexample :
    stitch_images ⟨false, false, false⟩ [] = .error .indexError ∧
    PyError.indexError ≠ PyError.configurationError :=
  ⟨rfl, by decide⟩

/-- C4 (amended): for the empty input field list, the stitch operation fails
with `IndexError` before any output is written (an `.error` result is an
abort before `files.save_image` is reached). -/
theorem c4_empty_input_aborts (cfg : StitchConfig) :
    stitch_images cfg [] = .error .indexError :=
  rfl

/-- When a field's stage-position or pixel-size metadata is missing, reading
its image metadata raises `FileNotFoundError` (missing sidecar) or `KeyError`
(missing key). -/
theorem read_missing_err (m : FieldMeta) (h : m.missing) :
    read_image_metadata m = .error .fileNotFoundError ∨
    read_image_metadata m = .error .keyError := by
  unfold FieldMeta.missing at h
  cases h1 : m.hasMetadataFile <;> cases h2 : m.hasPixelSize <;>
    cases h3 : m.hasXPos <;> cases h4 : m.hasYPos <;>
    simp_all [read_image_metadata]

/-- A field whose metadata read succeeds has none of its metadata missing. -/
theorem read_ok_not_missing (m : FieldMeta) (im : ImageMeta)
    (h : read_image_metadata m = .ok im) : ¬ m.missing := by
  intro hm
  rcases read_missing_err m hm with h1 | h1 <;> rw [h] at h1 <;> cases h1

/-- If any field in the tail has missing metadata, the stitch loop aborts
with an error. -/
theorem stitch_loop_err (cfg : StitchConfig) :
    ∀ (l : List StitchField) (st : LoopState),
      (∃ f ∈ l, f.meta.missing) → ∃ e, stitch_loop cfg st l = .error e := by
  intro l
  induction l with
  | nil =>
    intro st h
    simp at h
  | cons f rest ih =>
    intro st h
    cases hr : read_image_metadata f.meta with
    | error e => exact ⟨e, by simp [stitch_loop, hr]⟩
    | ok im =>
      have hfm : ¬ f.meta.missing := read_ok_not_missing f.meta im hr
      rcases h with ⟨g, hg, hgm⟩
      rcases List.mem_cons.mp hg with rfl | hgr
      · exact absurd hgm hfm
      · rcases ih _ ⟨g, hgr, hgm⟩ with ⟨e, he⟩
        refine ⟨e, ?_⟩
        simp only [stitch_loop, hr]
        exact he

/-- C5 counterexample: a single field whose frame metadata lacks
`PixelSizeUm` makes the stitch fail with `KeyError`, not the `MetadataError`
the claim names — no such error class exists in the repository. -/
theorem c5_counterexample :
    stitch_images ⟨false, false, false⟩
      [⟨⟨true, false, true, true, 0, 0, 1, 1, 4, 4⟩,
        NDArray.mk 4 4 .uint16 (fun _ _ => 0)⟩] = .error .keyError ∧
    PyError.keyError ≠ PyError.metadataError :=
  ⟨rfl, by decide⟩

/-- C5 (amended): whenever any field's stage-position or pixel-size metadata
is missing or unreadable, the stitch operation fails — it returns an error
and therefore never reaches `files.save_image`, so no partial canvas is
persisted — and the metadata failure itself surfaces as `FileNotFoundError`
(missing sidecar) or `KeyError` (missing key), with `UnboundLocalError` when
the first field's sidecar is missing (`is_mm` returns `False` and
`stitched_image` is never bound). -/
theorem c5_missing_metadata_aborts (cfg : StitchConfig)
    (fields : List StitchField) (h : ∃ f ∈ fields, f.meta.missing) :
    (∃ e, stitch_images cfg fields = .error e) ∧
    ∀ f ∈ fields, f.meta.missing →
      read_image_metadata f.meta = .error .fileNotFoundError ∨
      read_image_metadata f.meta = .error .keyError := by
  refine ⟨?_, fun f _ hm => read_missing_err f.meta hm⟩
  cases fields with
  | nil => simp at h
  | cons f0 rest =>
    by_cases h1 : f0.meta.hasMetadataFile = true
    · rw [show stitch_images cfg (f0 :: rest) = stitch_mm_images cfg (f0 :: rest)
        from by simp [stitch_images, h1]]
      cases hr : read_image_metadata f0.meta with
      | error e => exact ⟨e, by simp [stitch_mm_images, hr]⟩
      | ok im0 =>
        have hf0 : ¬ f0.meta.missing := read_ok_not_missing f0.meta im0 hr
        have hrest : ∃ f ∈ rest, f.meta.missing := by
          rcases h with ⟨g, hg, hgm⟩
          rcases List.mem_cons.mp hg with rfl | hgr
          · exact absurd hgm hf0
          · exact ⟨g, hgr, hgm⟩
        cases hd : init_image_dims im0.metaHeight im0.metaWidth
            (get_ds_factor im0.metaHeight f0.image.height) with
        | error e => exact ⟨e, by simp [stitch_mm_images, hr, hd]⟩
        | ok dims =>
          rcases stitch_loop_err cfg rest
            ⟨(im0.xPos, im0.yPos),
              get_pixel_size im0.pixelSize im0.binning
                (get_ds_factor im0.metaHeight f0.image.height),
              dims, (init_ranges dims).1, (init_ranges dims).2, f0.image⟩
            hrest with ⟨e, he⟩
          exact ⟨e, by simp [stitch_mm_images, hr, hd, he]⟩
    · exact ⟨.unboundLocalError, by simp [stitch_images, h1]⟩

/-- Witness for C5: a one-field list missing `PixelSizeUm` fails and the
failure kind is classified. -/
theorem c5_missing_metadata_aborts_witness :
    (∃ f ∈ [(⟨⟨true, false, true, true, 0, 0, 1, 1, 4, 4⟩,
        NDArray.mk 4 4 .uint16 (fun _ _ => 0)⟩ : StitchField)],
      f.meta.missing) ∧
    ((∃ e, stitch_images ⟨false, false, false⟩
        [⟨⟨true, false, true, true, 0, 0, 1, 1, 4, 4⟩,
          NDArray.mk 4 4 .uint16 (fun _ _ => 0)⟩] = .error e) ∧
    ∀ f ∈ [(⟨⟨true, false, true, true, 0, 0, 1, 1, 4, 4⟩,
        NDArray.mk 4 4 .uint16 (fun _ _ => 0)⟩ : StitchField)],
      f.meta.missing →
      read_image_metadata f.meta = .error .fileNotFoundError ∨
      read_image_metadata f.meta = .error .keyError) :=
  ⟨⟨⟨⟨true, false, true, true, 0, 0, 1, 1, 4, 4⟩,
      NDArray.mk 4 4 .uint16 (fun _ _ => 0)⟩,
    List.mem_singleton_self _, Or.inr (Or.inl rfl)⟩,
    c5_missing_metadata_aborts ⟨false, false, false⟩ _
      ⟨⟨⟨true, false, true, true, 0, 0, 1, 1, 4, 4⟩,
          NDArray.mk 4 4 .uint16 (fun _ _ => 0)⟩,
        List.mem_singleton_self _, Or.inr (Or.inl rfl)⟩⟩

/-- C3 counterexample: with metadata height `10` and projection-array height
`3` (which does not evenly divide it), `_get_ds_factor` returns the truncated
factor `int(10/3) = 3` and the stitch completes normally — it does not fail
with `ConfigurationError` (no such error class exists in the repository). -/
theorem c3_counterexample :
    get_ds_factor 10 3 = 3 ∧
    stitch_images ⟨false, false, false⟩
      [⟨⟨true, true, true, true, 0, 0, 1, 1, 8, 10⟩,
        NDArray.mk 3 4 .uint16 (fun _ _ => 1)⟩] =
      .ok (NDArray.mk 3 4 .uint16 (fun _ _ => 1)) ∧
    (Except.ok (NDArray.mk 3 4 .uint16 (fun _ _ => 1)) ≠
      (Except.error PyError.configurationError : Except PyError NDArray)) :=
  ⟨rfl, rfl, fun h => Except.noConfusion h⟩

/-- C3 (amended): when the first field's projection-array height does not
equal (in particular, does not evenly divide) the metadata height but is at
most the metadata height, downsample-factor derivation returns the truncated
integer `int(meta_height/image_height)` and the stitcher proceeds with it —
no error is raised. -/
theorem c3_ds_factor_truncates (meta_height image_height : ℕ)
    (h0 : 0 < image_height) (hne : image_height ≠ meta_height)
    (hle : image_height ≤ meta_height) :
    get_ds_factor meta_height image_height = meta_height / image_height ∧
    ∀ (cfg : StitchConfig) (f : StitchField),
      f.meta.hasMetadataFile = true → f.meta.hasPixelSize = true →
      f.meta.hasXPos = true → f.meta.hasYPos = true →
      f.meta.metaHeight = meta_height → f.image.height = image_height →
      stitch_images cfg [f] = .ok f.image := by
  refine ⟨by simp [get_ds_factor, hne], ?_⟩
  intro cfg f h1 h2 h3 h4 h5 h6
  have hr : read_image_metadata f.meta =
      .ok ⟨f.meta.xPos, f.meta.yPos, f.meta.pixelSize, f.meta.binning,
        f.meta.metaWidth, f.meta.metaHeight⟩ := by
    simp [read_image_metadata, h1, h2, h3, h4]
  have hds : get_ds_factor f.meta.metaHeight f.image.height ≠ 0 := by
    rw [h5, h6]
    simp only [get_ds_factor, if_pos hne]
    have := Nat.div_pos hle h0
    omega
  simp [stitch_images, h1, stitch_mm_images, hr, init_image_dims, hds,
    stitch_loop]

/-- Witness for C3 (amended) at metadata height `10` and array height `3`. -/
theorem c3_ds_factor_truncates_witness :
    0 < 3 ∧ 3 ≠ 10 ∧ 3 ≤ 10 ∧
    (get_ds_factor 10 3 = 10 / 3 ∧
    ∀ (cfg : StitchConfig) (f : StitchField),
      f.meta.hasMetadataFile = true → f.meta.hasPixelSize = true →
      f.meta.hasXPos = true → f.meta.hasYPos = true →
      f.meta.metaHeight = 10 → f.image.height = 3 →
      stitch_images cfg [f] = .ok f.image) :=
  ⟨by decide, by decide, by decide,
    c3_ds_factor_truncates 10 3 (by decide) (by decide) (by decide)⟩

/-! ## Canvas invariants across a whole stitch -/

/-- The canvas-side state carried across field placements: the canvas, the
fixed per-field image dimensions, and the tracked pixel ranges. -/
structure CanvasState where
  canvas : NDArray
  imageDims : Dims
  xRange : ℤ × ℤ
  yRange : ℤ × ℤ

/-- One field placement: `_stitch_new_image` applied to the current state at
the field's `(x_offset, y_offset)` with its projection array. -/
def stitch_step (st : CanvasState) (p : (ℤ × ℤ) × NDArray) : CanvasState :=
  let res := stitch_new_image p.2 st.canvas p.1.1 p.1.2 st.imageDims
    st.xRange st.yRange
  { st with canvas := res.1, xRange := res.2.1, yRange := res.2.2 }

/-- The initial state established by the first field (`file_num == 0` branch
of `_stitch_mm_images`): the canvas is the first field's array and the ranges
come from `_init_ranges`. -/
def init_canvas_state (first_image : NDArray) (image_dims : Dims) :
    CanvasState :=
  ⟨first_image, image_dims, (init_ranges image_dims).1,
    (init_ranges image_dims).2⟩

/-- All placements of a stitch, folded in input order. -/
def stitch_steps (st : CanvasState) :
    List ((ℤ × ℤ) × NDArray) → CanvasState
  | [] => st
  | p :: rest => stitch_steps (stitch_step st p) rest

/-- The canvas shape always matches the tracked ranges:
`shape = (y_range[1]-y_range[0], x_range[1]-x_range[0])`. -/
def rangesInvariant (st : CanvasState) : Prop :=
  (st.canvas.width : ℤ) = st.xRange.2 - st.xRange.1 ∧
  (st.canvas.height : ℤ) = st.yRange.2 - st.yRange.1

/-- Left extension: height unchanged. -/
theorem extend_left_height (s : NDArray) (e : ℤ) :
    (extend_left s e).height = s.height := by
  unfold extend_left; split_ifs <;> simp [concatAxis1, npZeros]

/-- Left extension: width grows by the positive part of the extension. -/
theorem extend_left_width (s : NDArray) (e : ℤ) :
    (extend_left s e).width = s.width + (if e > 0 then e.toNat else 0) := by
  unfold extend_left; split_ifs <;> simp [concatAxis1, npZeros] <;> omega

/-- Right extension: height unchanged. -/
theorem extend_right_height (s : NDArray) (e : ℤ) :
    (extend_right s e).height = s.height := by
  unfold extend_right; split_ifs <;> simp [concatAxis1, npZeros]

/-- Right extension: width grows by the positive part of the extension. -/
theorem extend_right_width (s : NDArray) (e : ℤ) :
    (extend_right s e).width = s.width + (if e > 0 then e.toNat else 0) := by
  unfold extend_right; split_ifs <;> simp [concatAxis1, npZeros]

/-- Top extension: width unchanged. -/
theorem extend_top_width (s : NDArray) (e : ℤ) :
    (extend_top s e).width = s.width := by
  unfold extend_top; split_ifs <;> simp [concatAxis0, npZeros]

/-- Top extension: height grows by the positive part of the extension. -/
theorem extend_top_height (s : NDArray) (e : ℤ) :
    (extend_top s e).height = s.height + (if e > 0 then e.toNat else 0) := by
  unfold extend_top; split_ifs <;> simp [concatAxis0, npZeros] <;> omega

/-- Bottom extension: width unchanged. -/
theorem extend_bot_width (s : NDArray) (e : ℤ) :
    (extend_bot s e).width = s.width := by
  unfold extend_bot; split_ifs <;> simp [concatAxis0, npZeros]

/-- Bottom extension: height grows by the positive part of the extension. -/
theorem extend_bot_height (s : NDArray) (e : ℤ) :
    (extend_bot s e).height = s.height + (if e > 0 then e.toNat else 0) := by
  unfold extend_bot; split_ifs <;> simp [concatAxis0, npZeros]

/-- Shape of an extended canvas: each positive extension adds its amount to
the matching dimension. -/
theorem add_stitched_extns_shape (s : NDArray) (xe ye : ℤ × ℤ) :
    (add_stitched_extns s xe ye).width =
      s.width + (if xe.1 > 0 then xe.1.toNat else 0) +
        (if xe.2 > 0 then xe.2.toNat else 0) ∧
    (add_stitched_extns s xe ye).height =
      s.height + (if ye.1 > 0 then ye.1.toNat else 0) +
        (if ye.2 > 0 then ye.2.toNat else 0) := by
  constructor
  · show (astype _ _).width = _
    simp only [astype]
    rw [extend_bot_width, extend_top_width, extend_right_width,
      extend_left_width]
  · show (astype _ _).height = _
    simp only [astype]
    rw [extend_bot_height, extend_top_height, extend_right_height,
      extend_left_height]

/-- A positive-part cast: `↑(if 0 < e then e.toNat else 0) = max e 0`. -/
theorem pos_part_cast (e : ℤ) :
    (((if e > 0 then e.toNat else 0 : ℕ)) : ℤ) = max e 0 := by
  split_ifs with h
  · rw [Int.toNat_of_nonneg h.le]
    omega
  · omega

/-- The canvas produced by one placement is the extended canvas with the
extensions `_get_stitched_extns` computes (region assignment keeps shape). -/
theorem stitch_step_canvas_width (st : CanvasState) (p : (ℤ × ℤ) × NDArray) :
    (stitch_step st p).canvas.width =
      st.canvas.width +
        (if st.xRange.1 - p.1.1 > 0 then (st.xRange.1 - p.1.1).toNat else 0) +
        (if p.1.1 + st.imageDims.width - st.xRange.2 > 0
          then (p.1.1 + st.imageDims.width - st.xRange.2).toNat else 0) := by
  show (add_stitched_extns st.canvas
    (st.xRange.1 - p.1.1, p.1.1 + st.imageDims.width - st.xRange.2)
    (st.yRange.1 - p.1.2, p.1.2 + st.imageDims.height - st.yRange.2)).width = _
  exact (add_stitched_extns_shape st.canvas _ _).1

/-- Height analogue of `stitch_step_canvas_width`. -/
theorem stitch_step_canvas_height (st : CanvasState) (p : (ℤ × ℤ) × NDArray) :
    (stitch_step st p).canvas.height =
      st.canvas.height +
        (if st.yRange.1 - p.1.2 > 0 then (st.yRange.1 - p.1.2).toNat else 0) +
        (if p.1.2 + st.imageDims.height - st.yRange.2 > 0
          then (p.1.2 + st.imageDims.height - st.yRange.2).toNat else 0) := by
  show (add_stitched_extns st.canvas
    (st.xRange.1 - p.1.1, p.1.1 + st.imageDims.width - st.xRange.2)
    (st.yRange.1 - p.1.2, p.1.2 + st.imageDims.height - st.yRange.2)).height = _
  exact (add_stitched_extns_shape st.canvas _ _).2

/-- The ranges produced by one placement are the `_update_stitched_range`
min/max combinations. -/
theorem stitch_step_ranges (st : CanvasState) (p : (ℤ × ℤ) × NDArray) :
    (stitch_step st p).xRange =
      (min st.xRange.1 p.1.1, max st.xRange.2 (p.1.1 + st.imageDims.width)) ∧
    (stitch_step st p).yRange =
      (min st.yRange.1 p.1.2, max st.yRange.2 (p.1.2 + st.imageDims.height)) :=
  ⟨rfl, rfl⟩

/-- One placement preserves the shape-ranges invariant. -/
theorem stitch_step_invariant (st : CanvasState) (p : (ℤ × ℤ) × NDArray)
    (h : rangesInvariant st) : rangesInvariant (stitch_step st p) := by
  obtain ⟨hw, hh⟩ := h
  obtain ⟨hx, hy⟩ := stitch_step_ranges st p
  constructor
  · rw [stitch_step_canvas_width st p, hx]
    push_cast [pos_part_cast]
    simp only [max_def, min_def]
    split_ifs <;> omega
  · rw [stitch_step_canvas_height st p, hy]
    push_cast [pos_part_cast]
    simp only [max_def, min_def]
    split_ifs <;> omega

/-- The invariant is preserved by any sequence of placements. -/
theorem stitch_steps_invariant (l : List ((ℤ × ℤ) × NDArray)) :
    ∀ st : CanvasState, rangesInvariant st →
      rangesInvariant (stitch_steps st l) := by
  induction l with
  | nil => exact fun st h => h
  | cons p rest ih => exact fun st h => ih _ (stitch_step_invariant st p h)

/-- C7: for every sequence of placements, after canvas initialization from
the first field and after each subsequent field placement the canvas array's
shape exactly equals `(y_range[1]-y_range[0], x_range[1]-x_range[0])` for the
currently tracked ranges (every intermediate state is `stitch_steps` of some
prefix, so this covers each step). -/
theorem c7_shape_matches_ranges (first_image : NDArray) (image_dims : Dims)
    (hh : first_image.height = image_dims.height)
    (hw : first_image.width = image_dims.width)
    (l : List ((ℤ × ℤ) × NDArray)) :
    rangesInvariant (stitch_steps (init_canvas_state first_image image_dims) l) := by
  apply stitch_steps_invariant
  constructor
  · simp [init_canvas_state, init_ranges, hw]
  · simp [init_canvas_state, init_ranges, hh]

/-- Witness for C7: a `2 × 3` first field with matching dims and one
placement at offset `(-1, 4)`. -/
theorem c7_shape_matches_ranges_witness :
    (NDArray.mk 2 3 .uint16 (fun _ _ => 9)).height = (Dims.mk 2 3).height ∧
    (NDArray.mk 2 3 .uint16 (fun _ _ => 9)).width = (Dims.mk 2 3).width ∧
    rangesInvariant (stitch_steps
      (init_canvas_state (NDArray.mk 2 3 .uint16 (fun _ _ => 9)) ⟨2, 3⟩)
      [((-1, 4), NDArray.mk 2 3 .uint16 (fun _ _ => 1))]) :=
  ⟨rfl, rfl,
    c7_shape_matches_ranges (NDArray.mk 2 3 .uint16 (fun _ _ => 9)) ⟨2, 3⟩
      rfl rfl [((-1, 4), NDArray.mk 2 3 .uint16 (fun _ _ => 1))]⟩

/-- One placement leaves the canvas dtype unchanged: the extension re-cast
restores the entry dtype and region assignment keeps the array's dtype. -/
theorem stitch_step_dtype (st : CanvasState) (p : (ℤ × ℤ) × NDArray) :
    (stitch_step st p).canvas.dtype = st.canvas.dtype :=
  rfl

/-- Any sequence of placements leaves the canvas dtype unchanged. -/
theorem stitch_steps_dtype (l : List ((ℤ × ℤ) × NDArray)) :
    ∀ st : CanvasState, (stitch_steps st l).canvas.dtype = st.canvas.dtype := by
  induction l with
  | nil => exact fun _ => rfl
  | cons p rest ih =>
    exact fun st => (ih (stitch_step st p)).trans (stitch_step_dtype st p)

/-- C6: for a first field of integer dtype, the canvas dtype equals that
field's dtype after initialization and after any number of extend and
max-merge placement steps; moreover each extension (`_add_stitched_extns`)
and each region write restores/keeps the dtype of the array it received. -/
theorem c6_dtype_preserved (first_image : NDArray) (image_dims : Dims)
    (_hint : first_image.dtype.isInt = true)
    (l : List ((ℤ × ℤ) × NDArray)) :
    (∀ (s : NDArray) (xe ye : ℤ × ℤ),
      (add_stitched_extns s xe ye).dtype = s.dtype) ∧
    (∀ (s : NDArray) (slices : (ℤ × ℤ) × (ℤ × ℤ)) (r : NDArray),
      (setRegion s slices r).dtype = s.dtype) ∧
    (stitch_steps (init_canvas_state first_image image_dims) l).canvas.dtype =
      first_image.dtype :=
  ⟨fun _ _ _ => rfl, fun _ _ _ => rfl,
    stitch_steps_dtype l (init_canvas_state first_image image_dims)⟩

/-- Witness for C6: a `uint16` first field and two placements. -/
theorem c6_dtype_preserved_witness :
    (NDArray.mk 2 2 .uint16 (fun _ _ => 4)).dtype.isInt = true ∧
    ((∀ (s : NDArray) (xe ye : ℤ × ℤ),
      (add_stitched_extns s xe ye).dtype = s.dtype) ∧
    (∀ (s : NDArray) (slices : (ℤ × ℤ) × (ℤ × ℤ)) (r : NDArray),
      (setRegion s slices r).dtype = s.dtype) ∧
    (stitch_steps
      (init_canvas_state (NDArray.mk 2 2 .uint16 (fun _ _ => 4)) ⟨2, 2⟩)
      [((3, 0), NDArray.mk 2 2 .uint16 (fun _ _ => 1)),
       ((-2, -2), NDArray.mk 2 2 .uint16 (fun _ _ => 2))]).canvas.dtype =
      (NDArray.mk 2 2 .uint16 (fun _ _ => 4)).dtype) :=
  ⟨rfl, c6_dtype_preserved (NDArray.mk 2 2 .uint16 (fun _ _ => 4)) ⟨2, 2⟩ rfl
    [((3, 0), NDArray.mk 2 2 .uint16 (fun _ _ => 1)),
     ((-2, -2), NDArray.mk 2 2 .uint16 (fun _ _ => 2))]⟩

/-- Range bounds only move outward (or stay) across any sequence of
placements. -/
theorem stitch_steps_range_mono (l : List ((ℤ × ℤ) × NDArray)) :
    ∀ st : CanvasState,
      (stitch_steps st l).xRange.1 ≤ st.xRange.1 ∧
      st.xRange.2 ≤ (stitch_steps st l).xRange.2 ∧
      (stitch_steps st l).yRange.1 ≤ st.yRange.1 ∧
      st.yRange.2 ≤ (stitch_steps st l).yRange.2 := by
  induction l with
  | nil => exact fun _ => ⟨le_refl _, le_refl _, le_refl _, le_refl _⟩
  | cons p rest ih =>
    intro st
    obtain ⟨h1, h2, h3, h4⟩ := ih (stitch_step st p)
    obtain ⟨hx, hy⟩ := stitch_step_ranges st p
    refine ⟨le_trans h1 ?_, le_trans ?_ h2, le_trans h3 ?_, le_trans ?_ h4⟩
    · rw [hx]; exact min_le_left _ _
    · rw [hx]; exact le_max_left _ _
    · rw [hy]; exact min_le_left _ _
    · rw [hy]; exact le_max_left _ _

/-- C8: at every placement the tracked ranges are replaced by the
componentwise `[min(current[0], new[0]), max(current[1], new[1])]` on both
axes, so each of the four bounds only moves outward or stays, and `x_range` /
`y_range` are non-shrinking across any whole stitch. -/
theorem c8_range_monotone :
    (∀ stitched_x_range stitched_y_range new_x_range new_y_range : ℤ × ℤ,
      update_stitched_range stitched_x_range stitched_y_range
          new_x_range new_y_range =
        ((min stitched_x_range.1 new_x_range.1,
          max stitched_x_range.2 new_x_range.2),
         (min stitched_y_range.1 new_y_range.1,
          max stitched_y_range.2 new_y_range.2)) ∧
      (update_stitched_range stitched_x_range stitched_y_range
          new_x_range new_y_range).1.1 ≤ stitched_x_range.1 ∧
      stitched_x_range.2 ≤ (update_stitched_range stitched_x_range
        stitched_y_range new_x_range new_y_range).1.2 ∧
      (update_stitched_range stitched_x_range stitched_y_range
          new_x_range new_y_range).2.1 ≤ stitched_y_range.1 ∧
      stitched_y_range.2 ≤ (update_stitched_range stitched_x_range
        stitched_y_range new_x_range new_y_range).2.2) ∧
    ∀ (st : CanvasState) (l : List ((ℤ × ℤ) × NDArray)),
      (stitch_steps st l).xRange.1 ≤ st.xRange.1 ∧
      st.xRange.2 ≤ (stitch_steps st l).xRange.2 ∧
      (stitch_steps st l).yRange.1 ≤ st.yRange.1 ∧
      st.yRange.2 ≤ (stitch_steps st l).yRange.2 :=
  ⟨fun _ _ _ _ => ⟨rfl, min_le_left _ _, le_max_left _ _,
      min_le_left _ _, le_max_left _ _⟩,
    fun st l => stitch_steps_range_mono l st⟩

/-! ## Max projections (`general/max_projections.py`) -/

/-- Python truthiness of a numpy array (`not arr` evaluates `bool(arr)`):
an array with more than one element raises
`ValueError: The truth value of an array with more than one element is
ambiguous`; a one-element array is truthy iff its element is nonzero; an
empty array is falsy. -/
def array_truthiness (a : NDArray) : Except PyError Bool :=
  if a.height * a.width > 1 then .error .valueError
  else if a.height * a.width = 1 then .ok (a.data 0 0 != 0)
  else .ok false

/-- `_update_max_proj(max_proj, new_image)` from
`general/max_projections.py`: `if not max_proj: return new_image` — intended
for `max_proj is None`, but evaluated by truthiness, so an ndarray
accumulator hits `bool(ndarray)`; otherwise
`np.max(np.array([new_image, max_proj]), 0)`. -/
def update_max_proj (max_proj : Option NDArray) (new_image : NDArray) :
    Except PyError NDArray :=
  match max_proj with
  | none => .ok new_image
  | some a =>
    match array_truthiness a with
    | .error e => .error e
    | .ok b =>
      if !b then .ok new_image
      else .ok ⟨a.height, a.width, promoteTypes new_image.dtype a.dtype,
        fun i j => max (new_image.data i j) (a.data i j)⟩

/-- The loop of `_get_max_from_list`, with each file's `get_max` result
abstracted as an already-loaded array. -/
def max_from_list_loop (acc : Option NDArray) :
    List NDArray → Except PyError (Option NDArray)
  | [] => .ok acc
  | f :: rest =>
    match update_max_proj acc f with
    | .error e => .error e
    | .ok m => max_from_list_loop (some m) rest

/-- `_get_max_from_list(file_list)` from `general/max_projections.py`:
`max_proj = None`, then fold `_update_max_proj` over the files. -/
def get_max_from_list (file_list : List NDArray) :
    Except PyError (Option NDArray) :=
  max_from_list_loop none file_list

/-- C10: whenever an already-loaded array with more than one element is
passed as the accumulated max projection, `_update_max_proj` raises
`ValueError` when it evaluates the truthiness of that array instead of
returning the element-wise maximum; consequently any max projection over two
or more files (the first having more than one pixel) — including field
loading for a multi-file same-sequence field, which goes through
`_get_max_from_list` — raises `ValueError`. -/
theorem c10_truthiness_value_error (a : NDArray)
    (ha : 1 < a.height * a.width) :
    (∀ new_image : NDArray,
      update_max_proj (some a) new_image = .error .valueError) ∧
    ∀ (second : NDArray) (rest : List NDArray),
      get_max_from_list (a :: second :: rest) = .error .valueError := by
  have hupd : ∀ new_image : NDArray,
      update_max_proj (some a) new_image = .error .valueError := by
    intro new_image
    simp [update_max_proj, array_truthiness, ha]
  refine ⟨hupd, fun second rest => ?_⟩
  have h1 : max_from_list_loop none (a :: second :: rest) =
      max_from_list_loop (some a) (second :: rest) := by
    simp [max_from_list_loop, update_max_proj]
  rw [get_max_from_list, h1]
  simp [max_from_list_loop, hupd second]

/-- Witness for C10: a `1 × 2` accumulator array. -/
theorem c10_truthiness_value_error_witness :
    1 < (NDArray.mk 1 2 .uint16 (fun _ _ => 7)).height *
      (NDArray.mk 1 2 .uint16 (fun _ _ => 7)).width ∧
    ((∀ new_image : NDArray,
      update_max_proj (some (NDArray.mk 1 2 .uint16 (fun _ _ => 7)))
        new_image = .error .valueError) ∧
    ∀ (second : NDArray) (rest : List NDArray),
      get_max_from_list ((NDArray.mk 1 2 .uint16 (fun _ _ => 7)) ::
        second :: rest) = .error .valueError) :=
  ⟨by decide,
    c10_truthiness_value_error (NDArray.mk 1 2 .uint16 (fun _ _ => 7))
      (by decide)⟩

/-! ## Rotation handling (spec-modelled)

Modelled from the spec: the rotation-aware revision of `stitch_images` — the
one `tests/test_general.py` invokes as `stitch_images(paths, save_path,
num_90_rotations=3, x_stage_is_inverted=True)` — is not among the source
files; only this caller is.  Spec §4.1: "each field's raw 2-D array is
rotated by `90° × num_90_rotations` (counter-clockwise, consistent with a
standard image-rotate-by-90 primitive) before any offset math; if the
rotation count is odd, the field's effective width/height are swapped before
the scale/offset computation that follows". -/

/-- Modelled from the spec: one standard counter-clockwise 90° image
rotation (`np.rot90`): row `i` of the result is the old column
`width - 1 - i`. -/
def rot90 (a : NDArray) : NDArray :=
  ⟨a.width, a.height, a.dtype, fun i j => a.data j (a.width - 1 - i)⟩

/-- Modelled from the spec: the field's raw array rotated by
`90° × num_90_rotations` counter-clockwise. -/
def rotate_image (num_90_rotations : ℕ) (a : NDArray) : NDArray :=
  rot90^[num_90_rotations] a

/-- Modelled from the spec: the effective `[height, width]` used by the
scale/offset computation — swapped when the rotation count is odd. -/
def effective_dims (num_90_rotations : ℕ) (dims : Dims) : Dims :=
  if num_90_rotations % 2 = 1 then ⟨dims.width, dims.height⟩ else dims

/-- Modelled from the spec: per-field preprocessing of the rotation-aware
stitcher revision — rotate the raw array, swap the effective dimensions on an
odd rotation count; both happen before any scale/offset computation. -/
def prepare_field (num_90_rotations : ℕ) (a : NDArray) (dims : Dims) :
    NDArray × Dims :=
  (rotate_image num_90_rotations a, effective_dims num_90_rotations dims)

/-- C9 (spec-modelled): for `num_90_rotations ∈ {1,2,3}` and metadata dims
matching the raw array's shape, the prepared field is the raw array rotated
counter-clockwise by 90° that many times, the effective dims are swapped
exactly when the count is odd, and the effective dims agree with the rotated
array's actual shape. -/
theorem c9_rotation_spec (num_90_rotations : ℕ)
    (hk : num_90_rotations = 1 ∨ num_90_rotations = 2 ∨ num_90_rotations = 3)
    (a : NDArray) (dims : Dims)
    (hh : dims.height = a.height) (hw : dims.width = a.width) :
    (prepare_field num_90_rotations a dims).1 =
      rot90^[num_90_rotations] a ∧
    (num_90_rotations % 2 = 1 →
      (prepare_field num_90_rotations a dims).2 =
        ⟨dims.width, dims.height⟩) ∧
    (num_90_rotations % 2 = 0 →
      (prepare_field num_90_rotations a dims).2 = dims) ∧
    (prepare_field num_90_rotations a dims).2.height =
      (rotate_image num_90_rotations a).height ∧
    (prepare_field num_90_rotations a dims).2.width =
      (rotate_image num_90_rotations a).width := by
  rcases hk with rfl | rfl | rfl <;>
    refine ⟨rfl, fun h => ?_, fun h => ?_, ?_, ?_⟩ <;>
    simp_all [prepare_field, effective_dims, rotate_image, rot90]

/-- Witness for C9 at `num_90_rotations = 3` (the count the test uses) on a
`2 × 5` array. -/
theorem c9_rotation_spec_witness :
    ((3 : ℕ) = 1 ∨ (3 : ℕ) = 2 ∨ (3 : ℕ) = 3) ∧
    (Dims.mk 2 5).height = (NDArray.mk 2 5 .uint16 (fun i j => i + j)).height ∧
    (Dims.mk 2 5).width = (NDArray.mk 2 5 .uint16 (fun i j => i + j)).width ∧
    ((prepare_field 3 (NDArray.mk 2 5 .uint16 (fun i j => i + j))
        ⟨2, 5⟩).1 = rot90^[3] (NDArray.mk 2 5 .uint16 (fun i j => i + j)) ∧
    ((3 : ℕ) % 2 = 1 →
      (prepare_field 3 (NDArray.mk 2 5 .uint16 (fun i j => i + j))
        ⟨2, 5⟩).2 = ⟨(Dims.mk 2 5).width, (Dims.mk 2 5).height⟩) ∧
    ((3 : ℕ) % 2 = 0 →
      (prepare_field 3 (NDArray.mk 2 5 .uint16 (fun i j => i + j))
        ⟨2, 5⟩).2 = ⟨2, 5⟩) ∧
    (prepare_field 3 (NDArray.mk 2 5 .uint16 (fun i j => i + j))
        ⟨2, 5⟩).2.height =
      (rotate_image 3 (NDArray.mk 2 5 .uint16 (fun i j => i + j))).height ∧
    (prepare_field 3 (NDArray.mk 2 5 .uint16 (fun i j => i + j))
        ⟨2, 5⟩).2.width =
      (rotate_image 3 (NDArray.mk 2 5 .uint16 (fun i j => i + j))).width) :=
  ⟨Or.inr (Or.inr rfl), rfl, rfl,
    c9_rotation_spec 3 (Or.inr (Or.inr rfl))
      (NDArray.mk 2 5 .uint16 (fun i j => i + j)) ⟨2, 5⟩ rfl rfl⟩
